import Mathlib

/-!
Shallow embedding of `pyro/distributions/torch.py`.

Tensors with a fixed batch shape are modelled as functions from an abstract
batch-index type `ι` to `ℚ`; elementwise tensor arithmetic becomes pointwise
arithmetic on such functions.  A Dirichlet concentration tensor, which carries
one extra event axis, is modelled as a function from `ι` to `List ℚ`.  The
transcendental kernels `lgamma` and `log` that the code calls on the host
framework are passed in as explicit function parameters `lg lo : ℚ → ℚ`, so
every statement below is universally quantified over them: the conjugate-update
claims are purely structural identities that hold for any such kernels.
-/

/-- `pyro.distributions.Beta`: parameters `concentration1`, `concentration0`,
one rational per batch element. -/
structure BetaD (ι : Type) where
  concentration1 : ι → ℚ
  concentration0 : ι → ℚ

/-- The inner `_log_normalizer` of `Beta.conjugate_update` (torch.py lines
25-28): `(x + y).lgamma() - x.lgamma() - y.lgamma()` with `x = concentration1`,
`y = concentration0`, elementwise over the batch. -/
def betaLogNormalizer {ι : Type} (lg : ℚ → ℚ) (d : BetaD ι) : ι → ℚ := fun i =>
  lg (d.concentration1 i + d.concentration0 i)
    - lg (d.concentration1 i) - lg (d.concentration0 i)

/-- `Beta.conjugate_update` (torch.py lines 16-31), after the
`isinstance(other, Beta)` assertion has passed (the dynamic dispatch with the
assertion is `BetaD.conjugate_updateDyn` below): posterior concentrations are
`self + other - 1` elementwise, and the log normalizer is
`_log_normalizer(self) + _log_normalizer(other) - _log_normalizer(updated)`. -/
def BetaD.conjugate_update {ι : Type} (lg : ℚ → ℚ) (self other : BetaD ι) :
    BetaD ι × (ι → ℚ) :=
  let concentration1 : ι → ℚ := fun i =>
    self.concentration1 i + other.concentration1 i - 1
  let concentration0 : ι → ℚ := fun i =>
    self.concentration0 i + other.concentration0 i - 1
  let updated : BetaD ι := ⟨concentration1, concentration0⟩
  let log_normalizer : ι → ℚ := fun i =>
    betaLogNormalizer lg self i + betaLogNormalizer lg other i
      - betaLogNormalizer lg updated i
  (updated, log_normalizer)

/-- `pyro.distributions.Gamma`: parameters `concentration`, `rate`. -/
structure GammaD (ι : Type) where
  concentration : ι → ℚ
  rate : ι → ℚ

/-- The inner `_log_normalizer` of `Gamma.conjugate_update` (torch.py lines
131-133): `d.rate.log() * c - c.lgamma()` with `c = d.concentration`. -/
def gammaLogNormalizer {ι : Type} (lg lo : ℚ → ℚ) (d : GammaD ι) : ι → ℚ :=
  fun i => lo (d.rate i) * d.concentration i - lg (d.concentration i)

/-- `Gamma.conjugate_update` (torch.py lines 122-136), after the
`isinstance(other, Gamma)` assertion: posterior concentration is
`self.concentration + other.concentration - 1`, posterior rate is
`self.rate + other.rate`. -/
def GammaD.conjugate_update {ι : Type} (lg lo : ℚ → ℚ) (self other : GammaD ι) :
    GammaD ι × (ι → ℚ) :=
  let concentration : ι → ℚ := fun i =>
    self.concentration i + other.concentration i - 1
  let rate : ι → ℚ := fun i => self.rate i + other.rate i
  let updated : GammaD ι := ⟨concentration, rate⟩
  let log_normalizer : ι → ℚ := fun i =>
    gammaLogNormalizer lg lo self i + gammaLogNormalizer lg lo other i
      - gammaLogNormalizer lg lo updated i
  (updated, log_normalizer)

/-- `pyro.distributions.Dirichlet`: a concentration vector (the last tensor
axis, modelled as a `List ℚ`) per batch element. -/
structure DirichletD (ι : Type) where
  concentration : ι → List ℚ

/-- The inner `_log_normalizer` of `Dirichlet.conjugate_update` (torch.py lines
113-115): `c.sum(-1).lgamma() - c.lgamma().sum(-1)`, the sums taken over the
last axis. -/
def dirichletLogNormalizer {ι : Type} (lg : ℚ → ℚ) (d : DirichletD ι) : ι → ℚ :=
  fun i => lg (d.concentration i).sum - ((d.concentration i).map lg).sum

/-- `Dirichlet.conjugate_update` (torch.py lines 105-118), after the
`isinstance(other, Dirichlet)` assertion: posterior concentration is
`self.concentration + other.concentration - 1`, elementwise over the last axis
(the two operands are assumed shape compatible; elementwise addition of two
equal length vectors is `List.zipWith`). -/
def DirichletD.conjugate_update {ι : Type} (lg : ℚ → ℚ)
    (self other : DirichletD ι) : DirichletD ι × (ι → ℚ) :=
  let concentration : ι → List ℚ := fun i =>
    List.zipWith (fun a b => a + b - 1) (self.concentration i)
      (other.concentration i)
  let updated : DirichletD ι := ⟨concentration⟩
  let log_normalizer : ι → ℚ := fun i =>
    dirichletLogNormalizer lg self i + dirichletLogNormalizer lg other i
      - dirichletLogNormalizer lg updated i
  (updated, log_normalizer)

/-- Validity of Beta parameters: both concentrations strictly positive
(the positivity constraint `torch.distributions.Beta` declares for its
parameters). -/
def BetaD.paramsValid {ι : Type} (d : BetaD ι) : Prop :=
  ∀ i, 0 < d.concentration1 i ∧ 0 < d.concentration0 i

/-- Validity of Gamma parameters: concentration and rate strictly positive. -/
def GammaD.paramsValid {ι : Type} (d : GammaD ι) : Prop :=
  ∀ i, 0 < d.concentration i ∧ 0 < d.rate i

/-!
Binomial.  The batch of `total_count` / `probs` values is modelled as a tensor
carrying a batch shape plus flattened per-element data.  Tensor broadcasting
(`torch.Tensor.expand`) is host-framework functionality outside this
repository; it is modelled as retargeting the batch shape while keeping the
per-element data, which is all the claims below inspect.  `math.inf`, the
default approximation threshold, is modelled as `⊤ : WithTop ℚ`.
-/

/-- A host-framework tensor: a batch shape and its flattened entries. -/
structure BTensor where
  shape : List ℕ
  data : List ℚ

/-- Host-framework `Tensor.expand`: broadcast to a new batch shape. -/
def BTensor.expand (t : BTensor) (batch_shape : List ℕ) : BTensor :=
  ⟨batch_shape, t.data⟩

/-- `Tensor.min()` on the flattened entries: `none` on an empty tensor (the
host framework raises there). -/
def BTensor.tmin : List ℚ → Option ℚ
  | [] => none
  | x :: xs =>
    some (match BTensor.tmin xs with
      | none => x
      | some m => min x m)

/-- A Python value passed as the `approx_sample_thresh` keyword: a number
(rationals, with `⊤` for `math.inf`) or some non-numeric object. -/
inductive PyValue where
  | num (q : WithTop ℚ)
  | obj (descr : String)

/-- `pyro.distributions.Binomial`: `total_count`, exactly one of
`probs`/`logits` (mirroring which key is present in `self.__dict__`), the
extra `approx_sample_thresh` attribute and the validation flag. -/
structure BinomialD where
  total_count : BTensor
  probs : Option BTensor
  logits : Option BTensor
  approx_sample_thresh : WithTop ℚ
  validate_args : Bool

/-- `Binomial.__init__` (torch.py lines 35-41): asserts that
`approx_sample_thresh` is a number and non-negative, then stores it. -/
def mkBinomial (total_count : BTensor) (probs logits : Option BTensor)
    (validate_args : Bool) (approx_sample_thresh : PyValue) :
    Except String BinomialD :=
  match approx_sample_thresh with
  | PyValue.obj _ =>
    Except.error "AssertionError: isinstance(approx_sample_thresh, numbers.Number)"
  | PyValue.num q =>
    if 0 ≤ q then
      Except.ok ⟨total_count, probs, logits, q, validate_args⟩
    else
      Except.error "AssertionError: approx_sample_thresh >= 0"

/-- `Binomial.expand` (torch.py lines 43-56): broadcasts `total_count` and
whichever of `probs`/`logits` is stored, carries `approx_sample_thresh` over
unchanged, and restores the original `_validate_args`. -/
def BinomialD.expand (self : BinomialD) (batch_shape : List ℕ) : BinomialD :=
  { total_count := self.total_count.expand batch_shape
    probs := self.probs.map (fun t => t.expand batch_shape)
    logits := self.logits.map (fun t => t.expand batch_shape)
    approx_sample_thresh := self.approx_sample_thresh
    validate_args := self.validate_args }

/-- The branch structure of `Binomial.sample` (torch.py lines 58-72): the
approximate path is taken iff `approx_sample_thresh < math.inf` and then
`approx_sample_thresh < self.total_count.min()`; `Except.ok true` means the
approximate clamped-Poisson path runs, `Except.ok false` the exact
`super().sample` path, and `Except.error` the host-framework error on taking
the min of an empty tensor. -/
def BinomialD.samplePathIsApprox (self : BinomialD) : Except String Bool :=
  if self.approx_sample_thresh < (⊤ : WithTop ℚ) then
    match BTensor.tmin self.total_count.data with
    | none => Except.error "RuntimeError: min(): Expected reduction over nonempty tensor"
    | some m => Except.ok (decide (self.approx_sample_thresh < (m : WithTop ℚ)))
  else
    Except.ok false

/-- One batch element of the approximate path of `Binomial.sample` (torch.py
lines 61-71), given that element's `total_count` `n`, success probability
`prob`, and the Poisson draw `X ~ Poisson(variance)` for that element:
`p = min(prob, 1-prob)` by reflection, `mean = min(prob,q)*n`,
`variance = prob*q*n`, `shift = round(mean - variance)`,
`result = min(X + shift, n)`, reflected back when `prob ≥ q`.  `torch.round`
rounds half to even while Mathlib's `round` rounds half up; the claims below
do not depend on the tie-breaking rule. -/
def clampedPoissonSample (n prob X : ℚ) : ℚ :=
  let p : ℚ := prob
  let q : ℚ := 1 - prob
  let mean : ℚ := min p q * n
  let variance : ℚ := p * q * n
  let shift : ℚ := (round (mean - variance) : ℤ)
  let result : ℚ := min (X + shift) n
  if p < q then result else n - result

/-- The elementwise approximate sampler over the whole batch: torch.py lines
61-71 applied to flattened `total_count`, `probs` and Poisson-draw tensors. -/
def binomialApproxSample (total_count probs poissonDraws : List ℚ) : List ℚ :=
  List.zipWith (fun np X => clampedPoissonSample np.1 np.2 X)
    (List.zip total_count probs) poissonDraws

/-!
Categorical.  `logits` has shape `batch_shape + (K,)`; it is modelled as a
function `B → Fin K → ℚ` over an abstract (flattened) batch index type `B`.
A value passed to `log_prob` that broadcasts against the batch (such as the
`(K,) + (1,)*len(batch_shape)` result of `enumerate_support`) is modelled as a
function `Fin K → B → ℤ` tagged, Python-style, with an optional
`_pyro_categorical_support` attribute holding the producing object id.
-/

/-- `pyro.distributions.Categorical`: per-batch-element logits over `K`
categories, plus the object identity `id(self)` used as the fast-path tag. -/
structure CategoricalD (B : Type) (K : ℕ) where
  logits : B → Fin K → ℚ
  distId : ℕ

/-- A tensor argument to `Categorical.log_prob` (leading enumeration axis,
broadcast against the batch) together with its optional
`_pyro_categorical_support` tag. -/
structure CatValue (B : Type) (K : ℕ) where
  values : Fin K → B → ℤ
  tag : Option ℕ

/-- `Categorical.enumerate_support` (torch.py lines 97-101): the upstream
support enumeration is `torch.arange(K)` reshaped (and, when `expand=True`,
expanded) against the batch, so its entry at enumeration index `k` and any
batch index is `k`; the result is tagged with `id(self)` exactly when
`expand=False`. -/
def CategoricalD.enumerate_support {B : Type} {K : ℕ} (self : CategoricalD B K)
    (expand : Bool) : CatValue B K :=
  { values := fun k _ => (k : ℤ)
    tag := if expand then none else some self.distId }

/-- The generic gather-based `log_prob` inherited from the host framework
(`torch.distributions.Categorical.log_prob`): broadcast `value` against the
batch and gather `self.logits` along the category axis at the given index;
indices outside `[0, K)` are a host-framework runtime error, modelled as
`none`. -/
def CategoricalD.gatherLogProb {B : Type} {K : ℕ} (self : CategoricalD B K)
    (values : Fin K → B → ℤ) : Fin K → B → Option ℚ := fun k b =>
  let v : ℤ := values k b
  if h : 0 ≤ v ∧ v.toNat < K then some (self.logits b ⟨v.toNat, h.2⟩)
  else none

/-- The fast path of `Categorical.log_prob` (torch.py lines 88-94): prepend a
singleton axis to `logits` (shape `(1,) + batch_shape + (K,)`), transpose that
axis with the category axis and squeeze, yielding the tensor whose entry at
enumeration index `k` and batch index `b` is `logits[b, k]`. -/
def CategoricalD.fastLogProb {B : Type} {K : ℕ} (self : CategoricalD B K) :
    Fin K → B → Option ℚ := fun k b => some (self.logits b k)

/-- `Categorical.log_prob` (torch.py lines 81-95): take the reshape-based fast
path exactly when the value's `_pyro_categorical_support` tag equals
`id(self)`, otherwise fall back to `super().log_prob`. -/
def CategoricalD.log_prob {B : Type} {K : ℕ} (self : CategoricalD B K)
    (value : CatValue B K) : Fin K → B → Option ℚ :=
  if value.tag = some self.distId then self.fastLogProb
  else self.gatherLogProb value.values

/-!
Independent.  `torch.distributions.Independent` stores its wrapper state under
the attribute name `reinterpreted_batch_ndims` (the name this repository's own
`Independent.support`, torch.py line 171, reads).  Python attribute lookup is
by string, so the embedding models the object's attribute table explicitly:
`conjugate_update` (torch.py line 185) looks up the misspelled name
`reintepreted_batch_ndims`, which is not in the table.
-/

/-- `pyro.distributions.Independent`: the wrapper state relevant to
`conjugate_update` is the number of reinterpreted batch dimensions. -/
structure IndependentD where
  reinterpreted_batch_ndims : ℕ

/-- Python attribute lookup on an `Independent` instance, restricted to the
integer-valued wrapper attributes: only `reinterpreted_batch_ndims` exists. -/
def IndependentD.getattr (self : IndependentD) (name : String) : Option ℕ :=
  if name = "reinterpreted_batch_ndims" then some self.reinterpreted_batch_ndims
  else none

/-- `Independent.conjugate_update` (torch.py lines 181-189).  Its first
statement evaluates `self.reintepreted_batch_ndims` (note the spelling); if
that lookup fails the method raises `AttributeError` before any delegation
happens, and otherwise the delegation of lines 186-188 would run with the
looked-up `n` (that continuation is represented by the returned `n`, from
which lines 186-188 compute `base_dist.conjugate_update(other.to_event(-n))`
re-wrapped by `to_event(n)` and `sum_rightmost(log_normalizer, n)`). -/
def IndependentD.conjugate_update (self : IndependentD) : Except String ℕ :=
  match self.getattr "reintepreted_batch_ndims" with
  | none => Except.error "AttributeError: reintepreted_batch_ndims"
  | some n => Except.ok n

/-!
Uniform.  `__init__` stashes the original (unbroadcast) `low`/`high` before the
upstream constructor broadcasts them against each other; `expand` broadcasts
the upstream parameters but copies the stashed originals; `support` is an
interval constraint built from the stashed originals.
-/

/-- An interval support constraint `constraints.interval(lower, upper)`. -/
structure IntervalConstraint where
  lower_bound : BTensor
  upper_bound : BTensor

/-- `pyro.distributions.Uniform`: upstream broadcast `low`/`high` plus the
stashed unbroadcast originals. -/
structure UniformD where
  low : BTensor
  high : BTensor
  unbroadcasted_low : BTensor
  unbroadcasted_high : BTensor

/-- `Uniform.__init__` (torch.py lines 193-196): stash the given bounds, then
let the upstream constructor broadcast `low` and `high` against each other (the
broadcast result shape is host-framework functionality; the data is kept). -/
def mkUniform (low high : BTensor) : UniformD :=
  { low := ⟨low.shape ++ high.shape, low.data⟩
    high := ⟨low.shape ++ high.shape, high.data⟩
    unbroadcasted_low := low
    unbroadcasted_high := high }

/-- `Uniform.expand` (torch.py lines 198-203): the upstream expand broadcasts
`low`/`high` to the new batch shape, then the stashed unbroadcast bounds are
copied over unchanged. -/
def UniformD.expand (self : UniformD) (batch_shape : List ℕ) : UniformD :=
  { low := self.low.expand batch_shape
    high := self.high.expand batch_shape
    unbroadcasted_low := self.unbroadcasted_low
    unbroadcasted_high := self.unbroadcasted_high }

/-- `Uniform.support` (torch.py lines 205-207):
`constraints.interval(self._unbroadcasted_low, self._unbroadcasted_high)`. -/
def UniformD.support (self : UniformD) : IntervalConstraint :=
  ⟨self.unbroadcasted_low, self.unbroadcasted_high⟩

/-!
Dynamic dispatch for `conjugate_update`: Python passes `other` untyped and the
methods begin with `assert isinstance(other, <Family>)`.  `PyDist` is the
dynamic value a caller may pass.
-/

/-- A distribution object of any family, as passed to `conjugate_update`;
`otherFamily` stands for the remaining (non-conjugate) families. -/
inductive PyDist (ι : Type) where
  | beta (d : BetaD ι)
  | gamma (d : GammaD ι)
  | dirichlet (d : DirichletD ι)
  | otherFamily (descr : String)

/-- `Beta.conjugate_update` with its `assert isinstance(other, Beta)` guard
(torch.py line 20). -/
def BetaD.conjugate_updateDyn {ι : Type} (lg : ℚ → ℚ) (self : BetaD ι)
    (other : PyDist ι) : Except String (BetaD ι × (ι → ℚ)) :=
  match other with
  | PyDist.beta b => Except.ok (BetaD.conjugate_update lg self b)
  | _ => Except.error "AssertionError: isinstance(other, Beta)"

/-- `Gamma.conjugate_update` with its `assert isinstance(other, Gamma)` guard
(torch.py line 126). -/
def GammaD.conjugate_updateDyn {ι : Type} (lg lo : ℚ → ℚ) (self : GammaD ι)
    (other : PyDist ι) : Except String (GammaD ι × (ι → ℚ)) :=
  match other with
  | PyDist.gamma g => Except.ok (GammaD.conjugate_update lg lo self g)
  | _ => Except.error "AssertionError: isinstance(other, Gamma)"

/-- `Dirichlet.conjugate_update` with its `assert isinstance(other, Dirichlet)`
guard (torch.py line 109). -/
def DirichletD.conjugate_updateDyn {ι : Type} (lg : ℚ → ℚ) (self : DirichletD ι)
    (other : PyDist ι) : Except String (DirichletD ι × (ι → ℚ)) :=
  match other with
  | PyDist.dirichlet d => Except.ok (DirichletD.conjugate_update lg self d)
  | _ => Except.error "AssertionError: isinstance(other, Dirichlet)"

/-!
Geometric.  `log_prob` is a formula in `value` and the log-odds `logits`
through the transcendental functions `log`/`exp`, so this family is embedded
over `ℝ`.
-/

/-- `torch.nn.functional.softplus` with the default `beta = 1`:
`softplus(x) = log(1 + exp(x))`. -/
noncomputable def softplus (x : ℝ) : ℝ := Real.log (1 + Real.exp x)

/-- `pyro.distributions.Geometric`: the log-odds parameter `logits` and the
validation flag. -/
structure GeometricD where
  logits : ℝ
  validate_args : Bool

/-- The support constraint of `torch.distributions.Geometric`
(`constraints.nonnegative_integer`), which `_validate_sample` checks: the
value is a non-negative integer. -/
def geometricSupport (value : ℝ) : Prop := 0 ≤ value ∧ ∃ n : ℤ, value = (n : ℝ)

/-- `Geometric.log_prob` (torch.py lines 141-144): run `_validate_sample`
first when `_validate_args` is set (a `ValueError` if the value is outside the
support), then return `(-value - 1) * softplus(logits) + logits`. -/
noncomputable def GeometricD.log_prob (self : GeometricD) (value : ℝ) :
    Except String ℝ :=
  open Classical in
  if self.validate_args = true ∧ ¬ geometricSupport value then
    Except.error "ValueError: The value argument must be within the support"
  else
    Except.ok ((-value - 1) * softplus self.logits + self.logits)

/-!
Theorems.
-/

/-- C1: For every pair of Beta distributions (prior, likelihood) and every
batch element, `conjugate_update` returns a Beta posterior with
`concentration1 = prior.concentration1 + likelihood.concentration1 - 1` and
`concentration0 = prior.concentration0 + likelihood.concentration0 - 1`, and a
log-normalizer equal to `logNorm(prior) + logNorm(likelihood) -
logNorm(posterior)` where `logNorm(d) = lgamma(c1+c0) - lgamma(c1) -
lgamma(c0)`, elementwise over batch dimensions and for any lgamma kernel. -/
theorem beta_conjugate_update_spec {ι : Type} (lg : ℚ → ℚ)
    (prior likelihood : BetaD ι) (i : ι) :
    ((BetaD.conjugate_update lg prior likelihood).1.concentration1 i
        = prior.concentration1 i + likelihood.concentration1 i - 1)
    ∧ ((BetaD.conjugate_update lg prior likelihood).1.concentration0 i
        = prior.concentration0 i + likelihood.concentration0 i - 1)
    ∧ ((BetaD.conjugate_update lg prior likelihood).2 i
        = (lg (prior.concentration1 i + prior.concentration0 i)
            - lg (prior.concentration1 i) - lg (prior.concentration0 i))
          + (lg (likelihood.concentration1 i + likelihood.concentration0 i)
            - lg (likelihood.concentration1 i) - lg (likelihood.concentration0 i))
          - (lg ((prior.concentration1 i + likelihood.concentration1 i - 1)
                + (prior.concentration0 i + likelihood.concentration0 i - 1))
            - lg (prior.concentration1 i + likelihood.concentration1 i - 1)
            - lg (prior.concentration0 i + likelihood.concentration0 i - 1))) :=
  ⟨rfl, rfl, rfl⟩

/-- C2: For every pair of Gamma distributions of matching batch shape,
`conjugate_update` returns concentration `k + k' - 1` and rate `r + r'` with
log-normalizer `logNorm(prior) + logNorm(likelihood) - logNorm(posterior)`
where `logNorm(d) = concentration * log(rate) - lgamma(concentration)`; and
for every pair of Dirichlet distributions, the posterior concentration vector
is `c + c' - 1` elementwise over the last axis, with `logNorm(d) =
lgamma(sum(c)) - sum(lgamma(c))` over the last axis — elementwise over batch
dimensions and for any lgamma/log kernels. -/
theorem gamma_dirichlet_conjugate_update_spec {ι : Type} (lg lo : ℚ → ℚ)
    (gprior glik : GammaD ι) (dprior dlik : DirichletD ι) (i : ι) :
    ((GammaD.conjugate_update lg lo gprior glik).1.concentration i
        = gprior.concentration i + glik.concentration i - 1)
    ∧ ((GammaD.conjugate_update lg lo gprior glik).1.rate i
        = gprior.rate i + glik.rate i)
    ∧ ((GammaD.conjugate_update lg lo gprior glik).2 i
        = (gprior.concentration i * lo (gprior.rate i)
            - lg (gprior.concentration i))
          + (glik.concentration i * lo (glik.rate i)
            - lg (glik.concentration i))
          - ((gprior.concentration i + glik.concentration i - 1)
              * lo (gprior.rate i + glik.rate i)
            - lg (gprior.concentration i + glik.concentration i - 1)))
    ∧ (∀ (j : ℕ) (h1 : j < (dprior.concentration i).length)
          (h2 : j < (dlik.concentration i).length)
          (hz : j < ((DirichletD.conjugate_update lg dprior dlik).1.concentration i).length),
        ((DirichletD.conjugate_update lg dprior dlik).1.concentration i)[j]
          = (dprior.concentration i)[j] + (dlik.concentration i)[j] - 1)
    ∧ ((DirichletD.conjugate_update lg dprior dlik).2 i
        = (lg (dprior.concentration i).sum
            - ((dprior.concentration i).map lg).sum)
          + (lg (dlik.concentration i).sum
            - ((dlik.concentration i).map lg).sum)
          - (lg (List.zipWith (fun a b => a + b - 1) (dprior.concentration i)
                  (dlik.concentration i)).sum
            - ((List.zipWith (fun a b => a + b - 1) (dprior.concentration i)
                  (dlik.concentration i)).map lg).sum)) := by
  refine ⟨rfl, rfl, ?_, ?_, rfl⟩
  · show lo (gprior.rate i) * gprior.concentration i - lg (gprior.concentration i)
        + (lo (glik.rate i) * glik.concentration i - lg (glik.concentration i))
        - (lo (gprior.rate i + glik.rate i)
            * (gprior.concentration i + glik.concentration i - 1)
          - lg (gprior.concentration i + glik.concentration i - 1)) = _
    ring
  · intro j h1 h2 hz
    show (List.zipWith (fun a b => a + b - 1) (dprior.concentration i)
        (dlik.concentration i))[j] = _
    rw [List.getElem_zipWith]

/-- A concrete Gamma over a single batch element, for instantiating the
conjugate-update statements. -/
def gamEx : GammaD Unit := ⟨fun _ => 2, fun _ => 3⟩

/-- A concrete Dirichlet over a single batch element. -/
def dirEx1 : DirichletD Unit := ⟨fun _ => [4, 7]⟩

/-- Another concrete Dirichlet over a single batch element. -/
def dirEx2 : DirichletD Unit := ⟨fun _ => [6, 2]⟩

/-- Witness for C2 at concrete inputs: the bound hypotheses of the
elementwise Dirichlet conjunct hold at index 0 of two 2-element concentration
vectors, and the posterior entry is `4 + 6 - 1`. -/
theorem gamma_dirichlet_conjugate_update_spec_witness :
    0 < (dirEx1.concentration ()).length
    ∧ 0 < (dirEx2.concentration ()).length
    ∧ 0 < ((DirichletD.conjugate_update id dirEx1 dirEx2).1.concentration ()).length
    ∧ ((DirichletD.conjugate_update id dirEx1 dirEx2).1.concentration ()).get
        ⟨0, by decide⟩
      = (dirEx1.concentration ()).get ⟨0, by decide⟩
        + (dirEx2.concentration ()).get ⟨0, by decide⟩ - 1 :=
  ⟨by decide, by decide, by decide, by
    simpa using
      (gamma_dirichlet_conjugate_update_spec id id gamEx gamEx dirEx1 dirEx2
        ()).2.2.2.1 0 (by decide) (by decide) (by decide)⟩

/-- C10: `conjugate_update` does not guard the `-1` offset against leaving the
family's parameter domain: there are two Betas with valid (strictly positive)
parameters whose concentration1 values sum to 1, making the posterior
concentration1 equal to 0, and likewise two valid Gammas whose concentrations
sum to 1, so the constructed posterior violates the positivity constraint. -/
theorem conjugate_update_unguarded_offset :
    (∃ self other : BetaD Unit, self.paramsValid ∧ other.paramsValid
        ∧ ¬ (BetaD.conjugate_update id self other).1.paramsValid)
    ∧ (∃ self other : GammaD Unit, self.paramsValid ∧ other.paramsValid
        ∧ ¬ (GammaD.conjugate_update id id self other).1.paramsValid) := by
  constructor
  · refine ⟨⟨fun _ => 1/2, fun _ => 1⟩, ⟨fun _ => 1/2, fun _ => 1⟩,
      fun _ => ⟨by norm_num, by norm_num⟩,
      fun _ => ⟨by norm_num, by norm_num⟩, fun h => ?_⟩
    have h0 := (h ()).1
    simp only [BetaD.conjugate_update] at h0
    norm_num at h0
  · refine ⟨⟨fun _ => 1/2, fun _ => 1⟩, ⟨fun _ => 1/2, fun _ => 1⟩,
      fun _ => ⟨by norm_num, by norm_num⟩,
      fun _ => ⟨by norm_num, by norm_num⟩, fun h => ?_⟩
    have h0 := (h ()).1
    simp only [GammaD.conjugate_update] at h0
    norm_num at h0

/-- `BTensor.tmin` of a nonempty list returns its minimum: a member that is a
lower bound of all entries. -/
theorem tmin_spec : ∀ (l : List ℚ) (m : ℚ), BTensor.tmin l = some m →
    m ∈ l ∧ ∀ x ∈ l, m ≤ x := by
  intro l
  induction l with
  | nil => intro m h; cases h
  | cons x xs ih =>
    intro m h
    simp only [BTensor.tmin] at h
    cases hx : BTensor.tmin xs with
    | none =>
      rw [hx] at h
      cases xs with
      | nil =>
        simp only [Option.some.injEq] at h
        subst h
        exact ⟨List.mem_cons_self _ _, by
          intro y hy
          rcases List.mem_cons.mp hy with h1 | h1
          · exact le_of_eq h1.symm
          · cases h1⟩
      | cons z zs => simp [BTensor.tmin] at hx
    | some m0 =>
      rw [hx] at h
      simp only [Option.some.injEq] at h
      subst h
      obtain ⟨hmem, hlb⟩ := ih m0 hx
      constructor
      · rcases le_total x m0 with hle | hle
        · rw [min_eq_left hle]; exact List.mem_cons_self x xs
        · rw [min_eq_right hle]
          exact List.mem_cons_of_mem _ hmem
      · intro y hy
        rcases List.mem_cons.mp hy with h1 | h1
        · exact h1 ▸ min_le_left _ _
        · exact le_trans (min_le_right _ _) (hlb y h1)

/-- `BTensor.tmin` of a nonempty list is defined. -/
theorem tmin_isSome (l : List ℚ) (h : l ≠ []) : ∃ m, BTensor.tmin l = some m := by
  cases l with
  | nil => exact absurd rfl h
  | cons x xs => exact ⟨_, rfl⟩

/-- C3: `Binomial.sample` takes the moment-matched clamped-Poisson approximate
path exactly when `approx_sample_thresh` is finite and strictly below every
(equivalently, the minimum) `total_count` entry; and when the threshold is
infinite (the default) the exact path is used regardless of `total_count`. -/
theorem binomial_sample_path_spec (b : BinomialD)
    (h : b.total_count.data ≠ []) :
    (b.samplePathIsApprox = Except.ok true ↔
      b.approx_sample_thresh ≠ ⊤
        ∧ ∀ t ∈ b.total_count.data, b.approx_sample_thresh < (t : WithTop ℚ))
    ∧ (b.approx_sample_thresh = ⊤ → b.samplePathIsApprox = Except.ok false) := by
  constructor
  · obtain ⟨m, hm⟩ := tmin_isSome _ h
    obtain ⟨hmem, hlb⟩ := tmin_spec _ _ hm
    by_cases htop : b.approx_sample_thresh < (⊤ : WithTop ℚ)
    · rw [BinomialD.samplePathIsApprox, if_pos htop, hm]
      constructor
      · intro hok
        simp only [Except.ok.injEq, decide_eq_true_eq] at hok
        refine ⟨WithTop.lt_top_iff_ne_top.mp htop, fun t ht => ?_⟩
        exact lt_of_lt_of_le hok (WithTop.coe_le_coe.mpr (hlb t ht))
      · intro ⟨_, hall⟩
        simp only [Except.ok.injEq, decide_eq_true_eq]
        exact hall m hmem
    · rw [BinomialD.samplePathIsApprox, if_neg htop]
      constructor
      · intro hok; cases hok
      · intro ⟨hne, _⟩
        exact absurd (WithTop.lt_top_iff_ne_top.mpr hne) htop
  · intro htop
    rw [BinomialD.samplePathIsApprox, if_neg (by simp [htop])]

/-- A concrete Binomial: batch of total counts `[10, 20]`, threshold 5. -/
def binEx : BinomialD :=
  ⟨⟨[2], [10, 20]⟩, some ⟨[2], [1/4, 1/3]⟩, none, ((5 : ℚ) : WithTop ℚ), false⟩

/-- Witness for C3: `binEx` has a nonempty batch, its finite threshold 5 is
below the minimum total count 10, and the approximate path is selected. -/
theorem binomial_sample_path_spec_witness :
    binEx.total_count.data ≠ [] ∧ binEx.samplePathIsApprox = Except.ok true :=
  ⟨by decide,
    ((binomial_sample_path_spec binEx (by decide)).1).mpr ⟨by decide, by decide⟩⟩

/-- C4: each element the clamped-Poisson approximate path produces lies in
`[0, total_count]`: with `probs ∈ [0,1]`, a non-negative `total_count` and a
non-negative Poisson draw, the algorithm's output for that batch element is
between `0` and its `total_count`. -/
theorem clampedPoissonSample_range (n prob X : ℚ) (hp0 : 0 ≤ prob)
    (hp1 : prob ≤ 1) (hn : 0 ≤ n) (hX : 0 ≤ X) :
    0 ≤ clampedPoissonSample n prob X ∧ clampedPoissonSample n prob X ≤ n := by
  have hq0 : 0 ≤ 1 - prob := by linarith
  have hpq : prob * (1 - prob) ≤ min prob (1 - prob) := by
    rcases le_total prob (1 - prob) with hle | hle
    · rw [min_eq_left hle]; nlinarith
    · rw [min_eq_right hle]; nlinarith
  have hmv : 0 ≤ min prob (1 - prob) * n - prob * (1 - prob) * n := by
    have := mul_le_mul_of_nonneg_right hpq hn
    linarith
  have hshift : (0 : ℚ) ≤ (round (min prob (1 - prob) * n
      - prob * (1 - prob) * n) : ℤ) := by
    have : (0 : ℤ) ≤ round (min prob (1 - prob) * n - prob * (1 - prob) * n) := by
      rw [round_eq]
      exact Int.floor_nonneg.mpr (by linarith)
    exact_mod_cast this
  have hres0 : 0 ≤ min (X + (round (min prob (1 - prob) * n
      - prob * (1 - prob) * n) : ℤ)) n := le_min (by linarith) hn
  have hresn : min (X + (round (min prob (1 - prob) * n
      - prob * (1 - prob) * n) : ℤ)) n ≤ n := min_le_right _ _
  unfold clampedPoissonSample
  by_cases hlt : prob < 1 - prob
  · rw [if_pos hlt]
    exact ⟨hres0, hresn⟩
  · rw [if_neg hlt]
    constructor
    · linarith
    · linarith

/-- Witness for C4: at `total_count = 100`, `prob = 1/4`, Poisson draw `3`,
the hypotheses hold and the produced sample is in `[0, 100]`. -/
theorem clampedPoissonSample_range_witness :
    (0 : ℚ) ≤ 1/4 ∧ (1/4 : ℚ) ≤ 1 ∧ (0 : ℚ) ≤ 100 ∧ (0 : ℚ) ≤ 3
    ∧ (0 ≤ clampedPoissonSample 100 (1/4) 3
        ∧ clampedPoissonSample 100 (1/4) 3 ≤ 100) :=
  ⟨by norm_num, by norm_num, by norm_num, by norm_num,
    clampedPoissonSample_range 100 (1/4) 3 (by norm_num) (by norm_num)
      (by norm_num) (by norm_num)⟩

/-- C5: an `enumerate_support(expand=False)` value is tagged with the
distribution's identity and its fast-path `log_prob` agrees elementwise with
the generic gather-based computation; any value whose tag is not this
distribution's identity (such as an `expand=True` enumeration, which is left
untagged, or an arbitrary integer tensor) takes the generic path and yields
the gather-based answer. -/
theorem categorical_fast_path_spec {B : Type} {K : ℕ} (d : CategoricalD B K) :
    ((d.enumerate_support false).tag = some d.distId)
    ∧ (∀ (k : Fin K) (b : B),
        d.log_prob (d.enumerate_support false) k b
          = d.gatherLogProb (d.enumerate_support false).values k b)
    ∧ (∀ value : CatValue B K, value.tag ≠ some d.distId →
        d.log_prob value = d.gatherLogProb value.values)
    ∧ ((d.enumerate_support true).tag = none) := by
  refine ⟨rfl, ?_, ?_, rfl⟩
  · intro k b
    rw [CategoricalD.log_prob,
      if_pos (show (d.enumerate_support false).tag = some d.distId from rfl)]
    have hk : (0 : ℤ) ≤ (k : ℤ) ∧ ((k : ℤ)).toNat < K :=
      ⟨Int.natCast_nonneg k.val, by simp⟩
    simp [CategoricalD.fastLogProb, CategoricalD.gatherLogProb,
      CategoricalD.enumerate_support, hk]
  · intro value hv
    rw [CategoricalD.log_prob, if_neg hv]

/-- A concrete Categorical over one batch element and two categories, with
object id 37. -/
def catEx : CategoricalD Unit 2 := ⟨fun _ k => (k : ℚ) / 2, 37⟩

/-- An arbitrary untagged integer-valued argument for `catEx.log_prob`. -/
def catValEx : CatValue Unit 2 := ⟨fun _ _ => 1, none⟩

/-- Witness for C5: the untagged value `catValEx` has a tag different from
`catEx`'s identity, and `log_prob` on it is the gather-based computation. -/
theorem categorical_fast_path_spec_witness :
    catValEx.tag ≠ some catEx.distId
    ∧ catEx.log_prob catValEx = catEx.gatherLogProb catValEx.values :=
  ⟨by simp [catValEx, catEx],
    (categorical_fast_path_spec catEx).2.2.1 catValEx (by simp [catValEx, catEx])⟩

/-- C6 (code bug): `Independent.conjugate_update` reads the misspelled
attribute `reintepreted_batch_ndims` (torch.py line 185), which no
`Independent` instance has — line 171 spells the stored attribute
`reinterpreted_batch_ndims` — so every call raises `AttributeError` before any
delegation to the base distribution can happen. -/
theorem independent_conjugate_update_raises (d : IndependentD) :
    d.conjugate_update = Except.error "AttributeError: reintepreted_batch_ndims"
      ∧ d.getattr "reinterpreted_batch_ndims" = some d.reinterpreted_batch_ndims
      ∧ d.getattr "reintepreted_batch_ndims" = none := by
  refine ⟨?_, ?_, ?_⟩
  · rw [IndependentD.conjugate_update]
    rw [show d.getattr "reintepreted_batch_ndims" = none from by
      rw [IndependentD.getattr, if_neg (by decide)]]
  · rw [IndependentD.getattr, if_pos rfl]
  · rw [IndependentD.getattr, if_neg (by decide)]

/-- C8: `expand` preserves every auxiliary subclass attribute:
`Binomial.expand` carries `approx_sample_thresh` over unchanged, and
`Uniform.expand` — also when applied twice in a row — carries the original
unbroadcast `low`/`high` over unchanged, with the support constraint computed
from those unbroadcast bounds, so double expansion leaves the support equal to
the original support. -/
theorem expand_preserves_aux_attrs (b : BinomialD) (bs1 : List ℕ)
    (u : UniformD) (bs2 bs3 : List ℕ) :
    ((b.expand bs1).approx_sample_thresh = b.approx_sample_thresh)
    ∧ ((u.expand bs2).unbroadcasted_low = u.unbroadcasted_low)
    ∧ ((u.expand bs2).unbroadcasted_high = u.unbroadcasted_high)
    ∧ (((u.expand bs2).expand bs3).unbroadcasted_low = u.unbroadcasted_low)
    ∧ (((u.expand bs2).expand bs3).unbroadcasted_high = u.unbroadcasted_high)
    ∧ (((u.expand bs2).expand bs3).support
        = IntervalConstraint.mk u.unbroadcasted_low u.unbroadcasted_high)
    ∧ (((u.expand bs2).expand bs3).support = u.support) :=
  ⟨rfl, rfl, rfl, rfl, rfl, rfl, rfl⟩

/-- C7: for every Geometric distribution and every value `v : ℕ` in the
support, `log_prob` returns `(-v - 1) * softplus(logits) + logits`; under
`logits = log(p / (1 - p))` with `0 < p < 1` this equals the standard
Geometric log-PMF `v * log(1 - p) + log(p)`; and with validation enabled a
value outside the support is rejected before the formula is computed. -/
theorem geometric_log_prob_spec (p : ℝ) (hp0 : 0 < p) (hp1 : p < 1)
    (d : GeometricD) (hlogits : d.logits = Real.log (p / (1 - p))) :
    (∀ v : ℕ, d.log_prob (v : ℝ)
        = Except.ok ((-(v : ℝ) - 1) * softplus d.logits + d.logits))
    ∧ (∀ v : ℕ, (-(v : ℝ) - 1) * softplus d.logits + d.logits
        = (v : ℝ) * Real.log (1 - p) + Real.log p)
    ∧ (d.validate_args = true → ∀ w : ℝ, ¬ geometricSupport w →
        d.log_prob w
          = Except.error "ValueError: The value argument must be within the support") := by
  have h1p : (0 : ℝ) < 1 - p := by linarith
  refine ⟨?_, ?_, ?_⟩
  · intro v
    rw [GeometricD.log_prob, if_neg]
    rintro ⟨-, hns⟩
    exact hns ⟨Nat.cast_nonneg v, ⟨(v : ℤ), by push_cast; ring⟩⟩
  · intro v
    have hsp : softplus (Real.log (p / (1 - p))) = -Real.log (1 - p) := by
      rw [softplus, Real.exp_log (div_pos hp0 h1p)]
      have hsum : 1 + p / (1 - p) = (1 - p)⁻¹ := by field_simp
      rw [hsum, Real.log_inv]
    have hld : Real.log (p / (1 - p)) = Real.log p - Real.log (1 - p) :=
      Real.log_div hp0.ne' h1p.ne'
    rw [hlogits, hsp, hld]
    ring
  · intro hval w hw
    rw [GeometricD.log_prob, if_pos ⟨hval, hw⟩]

/-- A concrete Geometric with `p = 1/2` (so `logits = log 1 = 0`) and
validation enabled. -/
noncomputable def geomEx : GeometricD :=
  ⟨Real.log ((1/2 : ℝ) / (1 - 1/2)), true⟩

/-- Witness for C7 at `p = 1/2`, `v = 0` and the out-of-support value `-1`. -/
theorem geometric_log_prob_spec_witness :
    geomEx.log_prob ((0 : ℕ) : ℝ)
      = Except.ok ((-((0 : ℕ) : ℝ) - 1) * softplus geomEx.logits + geomEx.logits)
    ∧ ((-((0 : ℕ) : ℝ) - 1) * softplus geomEx.logits + geomEx.logits
        = ((0 : ℕ) : ℝ) * Real.log (1 - 1/2) + Real.log (1/2))
    ∧ geomEx.log_prob (-1)
      = Except.error "ValueError: The value argument must be within the support" := by
  have h := geometric_log_prob_spec (1/2) (by norm_num) (by norm_num) geomEx rfl
  exact ⟨h.1 0, h.2.1 0,
    h.2.2 rfl (-1) (fun hs => absurd hs.1 (by norm_num))⟩

/-- C9: contract violations fail with assertion-style errors: passing a
non-Beta `other` to `Beta.conjugate_update` (likewise Gamma and Dirichlet)
hits the `isinstance` assertion, and constructing a Binomial with a
non-numeric or negative `approx_sample_thresh` hits the constructor
assertions. -/
theorem contract_violation_assertions {ι : Type} :
    (∀ (lg : ℚ → ℚ) (self : BetaD ι) (other : PyDist ι),
        (∀ b : BetaD ι, other ≠ PyDist.beta b) →
        BetaD.conjugate_updateDyn lg self other
          = Except.error "AssertionError: isinstance(other, Beta)")
    ∧ (∀ (lg lo : ℚ → ℚ) (self : GammaD ι) (other : PyDist ι),
        (∀ g : GammaD ι, other ≠ PyDist.gamma g) →
        GammaD.conjugate_updateDyn lg lo self other
          = Except.error "AssertionError: isinstance(other, Gamma)")
    ∧ (∀ (lg : ℚ → ℚ) (self : DirichletD ι) (other : PyDist ι),
        (∀ dd : DirichletD ι, other ≠ PyDist.dirichlet dd) →
        DirichletD.conjugate_updateDyn lg self other
          = Except.error "AssertionError: isinstance(other, Dirichlet)")
    ∧ (∀ (tc : BTensor) (pr lgt : Option BTensor) (va : Bool) (descr : String),
        mkBinomial tc pr lgt va (PyValue.obj descr)
          = Except.error "AssertionError: isinstance(approx_sample_thresh, numbers.Number)")
    ∧ (∀ (tc : BTensor) (pr lgt : Option BTensor) (va : Bool) (q : WithTop ℚ),
        q < 0 →
        mkBinomial tc pr lgt va (PyValue.num q)
          = Except.error "AssertionError: approx_sample_thresh >= 0") := by
  refine ⟨?_, ?_, ?_, ?_, ?_⟩
  · intro lg self other hother
    cases other with
    | beta b => exact absurd rfl (hother b)
    | gamma g => rfl
    | dirichlet dd => rfl
    | otherFamily s => rfl
  · intro lg lo self other hother
    cases other with
    | beta b => rfl
    | gamma g => exact absurd rfl (hother g)
    | dirichlet dd => rfl
    | otherFamily s => rfl
  · intro lg self other hother
    cases other with
    | beta b => rfl
    | gamma g => rfl
    | dirichlet dd => exact absurd rfl (hother dd)
    | otherFamily s => rfl
  · intro tc pr lgt va descr
    rfl
  · intro tc pr lgt va q hq
    simp only [mkBinomial, if_neg (not_le.mpr hq)]

/-- Witness for C9: concrete mismatched-family calls and concrete bad
thresholds all produce the assertion errors. -/
theorem contract_violation_assertions_witness :
    BetaD.conjugate_updateDyn id (⟨fun _ => 2, fun _ => 3⟩ : BetaD Unit)
        (PyDist.otherFamily "Normal")
      = Except.error "AssertionError: isinstance(other, Beta)"
    ∧ GammaD.conjugate_updateDyn id id (⟨fun _ => 2, fun _ => 3⟩ : GammaD Unit)
        (PyDist.beta ⟨fun _ => 2, fun _ => 3⟩)
      = Except.error "AssertionError: isinstance(other, Gamma)"
    ∧ DirichletD.conjugate_updateDyn id (⟨fun _ => [1, 2]⟩ : DirichletD Unit)
        (PyDist.otherFamily "Normal")
      = Except.error "AssertionError: isinstance(other, Dirichlet)"
    ∧ mkBinomial ⟨[1], [5]⟩ none none false (PyValue.obj "a list")
      = Except.error "AssertionError: isinstance(approx_sample_thresh, numbers.Number)"
    ∧ mkBinomial ⟨[1], [5]⟩ none none false (PyValue.num ((-1 : ℚ) : WithTop ℚ))
      = Except.error "AssertionError: approx_sample_thresh >= 0" := by
  have h := contract_violation_assertions (ι := Unit)
  exact ⟨h.1 id _ _ (fun b hb => by cases hb),
    h.2.1 id id _ _ (fun g hg => by cases hg),
    h.2.2.1 id _ _ (fun dd hdd => by cases hdd),
    h.2.2.2.1 _ _ _ _ _,
    h.2.2.2.2 _ _ _ _ _ (by decide)⟩
